import Mathlib

/-
  Verification development for the OpenSlides core REST module
  (openslides/core/views.py), centred on the projector element
  composition protocol of ProjectorViewSet: activate / prune / update /
  deactivate / clear of projector elements, the two-phase `project`
  operation, and `destroy` with its ProjectionDefault reassignment.

  The source operates on JSON request payloads and on Django model
  instances whose `config` attribute is a JSON object (a Python dict
  mapping hex-UUID keys to element dicts).  We embed JSON values as the
  inductive `Json` below (JSON numbers appear in this module only as
  integers — ids and scroll values — so no float constructor is
  modelled), Python dicts as ordered association lists with the exact
  Python semantics for `d[k] = v` (replace in place, else append),
  `del d[k]` and `d.get(k)`, and each view method as a function
  returning `Except` where `Except.error` models a raised
  ValidationError: in the source every ValidationError is raised before
  `serializer.save()` persists anything for that request, so an error
  result carries no persisted mutation.
-/

namespace OpenSlides

/-- JSON-like values as they appear in request bodies and in the
`config` JSONField of a projector. -/
inductive Json where
  | null : Json
  | bool : Bool → Json
  | int : Int → Json
  | str : String → Json
  | arr : List Json → Json
  | obj : List (String × Json) → Json
deriving Repr

/-! ## Python dict semantics over ordered association lists -/

/-- `d.get(k)`-style lookup: first entry with the given key. -/
def dlookup : List (String × Json) → String → Option Json
  | [], _ => none
  | kv :: rest, k => if kv.1 = k then some kv.2 else dlookup rest k

/-- `k in d` membership test. -/
def dmem (d : List (String × Json)) (k : String) : Bool :=
  (dlookup d k).isSome

/-- `d[k] = v`: replace the value in place if the key is present
(Python dicts keep the original position), otherwise append.  A Python
dict holds each key at most once, so replacing the first occurrence is
the exact Python semantics on every reachable state. -/
def dset : List (String × Json) → String → Json → List (String × Json)
  | [], k, v => [(k, v)]
  | kv :: rest, k, v =>
    if kv.1 = k then (k, v) :: rest else kv :: dset rest k v

/-- `del d[k]`: remove the (unique) entry with this key. -/
def ddel : List (String × Json) → String → List (String × Json)
  | [], _ => []
  | kv :: rest, k => if kv.1 = k then rest else kv :: ddel rest k

/-- `d1.update(d2)`: assign every entry of `d2` into `d1`, in order. -/
def dictUpdate (d1 d2 : List (String × Json)) : List (String × Json) :=
  d2.foldl (fun acc kv => dset acc kv.1 kv.2) d1

/-- `j.get(k)` on a JSON object, `none` when the key is missing or the
value is not an object (the source only calls `.get` on dicts). -/
def jget (j : Json) (k : String) : Option Json :=
  match j with
  | .obj kvs => dlookup kvs k
  | _ => none

/-- `j.get(k, dflt)`. -/
def jgetD (j : Json) (k : String) (dflt : Json) : Json :=
  (jget j k).getD dflt

/-- `j.get(k)` with Python's implicit `None` default.  A stored JSON
null and a missing key are both Python `None`. -/
def pyGet (j : Json) (k : String) : Json :=
  jgetD j k Json.null

/-- Python truthiness of a JSON value (`if value.get("stable"):`). -/
def truthy : Json → Bool
  | .null => false
  | .bool b => b
  | .int n => !(n == 0)
  | .str s => !(s == "")
  | .arr xs => !xs.isEmpty
  | .obj kvs => !kvs.isEmpty

/-- `x is None` for a value read with `.get`. -/
def isNone : Json → Bool
  | .null => true
  | _ => false

/-- `isinstance(x, dict)`. -/
def isDict : Json → Bool
  | .obj _ => true
  | _ => false

/-- `isinstance(x, int)`, together with the int value: Python `bool` is
a subclass of `int` with `True == 1` and `False == 0`. -/
def jsonAsInt : Json → Option Int
  | .int n => some n
  | .bool b => some (if b then 1 else 0)
  | _ => none

/-- `str(x)` as used in f-string error messages and in
`uuid.UUID(hex=str(item))`.  Container reprs are abbreviated: the
source never produces a repr of a list or dict that passes the UUID
parse (it would contain brackets or quotes). -/
def pyStr : Json → String
  | .null => "None"
  | .bool true => "True"
  | .bool false => "False"
  | .int n => toString n
  | .str s => s
  | .arr _ => "[...]"
  | .obj _ => "\x7b...\x7d"

/-! ## uuid.UUID(hex=...) syntax check (CPython uuid.py)

The constructor runs
`hex = hex.replace('urn:', '').replace('uuid:', '')`,
`hex = hex.strip('\x7b\x7d').replace('-', '')`, requires
`len(hex) == 32` and then parses with `int(hex, 16)`, which tolerates
surrounding ASCII whitespace, one leading sign, an optional `0x` slash
prefix and single underscores between hex digits.  A `-` sign cannot
survive the `replace('-', '')`, and any value parsed from 32 remaining
characters is below `2 ** 128`, so the UUID range check never fires. -/

/-- If `pat` starts the list, return the remainder. -/
def patAt : List Char → List Char → Option (List Char)
  | [], l => some l
  | _, [] => none
  | pc :: ps, c :: cs => if pc = c then patAt ps cs else none

/-- Fuel-driven worker for `str.replace(pat, '')` (left-to-right,
non-overlapping).  Called with fuel = length of the list, which is
enough for every non-empty pattern. -/
def removeAllAux (pat : List Char) : Nat → List Char → List Char
  | _, [] => []
  | 0, l => l
  | Nat.succ fuel, c :: cs =>
    match patAt pat (c :: cs) with
    | some rest => removeAllAux pat fuel rest
    | none => c :: removeAllAux pat fuel cs

/-- `s.replace(pat, '')` on char lists. -/
def pyRemoveAll (pat : String) (l : List Char) : List Char :=
  removeAllAux pat.data l.length l

def isBrace (c : Char) : Bool := c = '\x7b' || c = '\x7d'

/-- `s.strip('\x7b\x7d')`: drop leading and trailing braces. -/
def stripBr (l : List Char) : List Char :=
  ((l.dropWhile isBrace).reverse.dropWhile isBrace).reverse

def pySpace (c : Char) : Bool :=
  c = ' ' || c = '\t' || c = '\n' || c = '\r' || c = '\x0b' || c = '\x0c'

def isHexDig (c : Char) : Bool :=
  (('0' ≤ c) && (c ≤ '9')) || (('a' ≤ c) && (c ≤ 'f')) ||
    (('A' ≤ c) && (c ≤ 'F'))

/-- Hex digits with single underscores allowed between digits. -/
def hexTail : List Char → Bool
  | [] => true
  | '_' :: c :: rest => isHexDig c && hexTail rest
  | c :: rest => isHexDig c && hexTail rest

/-- A non-empty run of hex digits (underscore-separated). -/
def hexRun : List Char → Bool
  | [] => false
  | c :: rest => isHexDig c && hexTail rest

/-- Digit part of `int(s, 16)` after sign stripping: optional `0x`/`0X`
prefix (an underscore may follow the prefix), then a hex run. -/
def pyIntHexBody : List Char → Bool
  | '0' :: 'x' :: rest =>
    (match rest with
     | '_' :: r => hexRun r
     | r => hexRun r)
  | '0' :: 'X' :: rest =>
    (match rest with
     | '_' :: r => hexRun r
     | r => hexRun r)
  | l => hexRun l

/-- Whether `int(s, 16)` succeeds with a value usable as a UUID
(negative values are rejected by the UUID constructor). -/
def pyIntHexOk (l : List Char) : Bool :=
  let l1 := l.dropWhile pySpace
  let l2 := (l1.reverse.dropWhile pySpace).reverse
  match l2 with
  | '+' :: r => pyIntHexBody r
  | '-' :: _ => false
  | r => pyIntHexBody r

/-- Whether `uuid.UUID(hex=s)` succeeds. -/
def uuidHexValid (s : String) : Bool :=
  let l1 := pyRemoveAll ("urn:") s.data
  let l2 := pyRemoveAll ("uuid:") l1
  let l3 := stripBr l2
  let l4 := pyRemoveAll ("-") l3
  (l4.length == 32) && pyIntHexOk l4

/-- `uuid.UUID(hex=str(item))` on a raw JSON list item. -/
def uuidCheckJson (j : Json) : Bool :=
  match j with
  | .str s => uuidHexValid s
  | .int n => uuidHexValid (toString n)
  | _ => false

/-! ## Data model (openslides/core/models.py fields used by views.py) -/

/-- A projector row: `config` is the JSONField holding the element
mapping (hex key → element dict). -/
structure Projector where
  id : Nat
  config : List (String × Json)
  scroll : Int
  scale : Int
  width : Nat
  height : Nat
  blank : Bool
deriving Repr

/-- A ProjectionDefault row with its foreign key to a projector. -/
structure ProjectionDefault where
  id : Nat
  projector_id : Nat
deriving Repr, DecidableEq

/-- The store state touched by ProjectorViewSet: the projector table,
the ProjectionDefault table, and the `projector_broadcast` config
value (0 = no broadcast). -/
structure CoreState where
  projectors : List Projector
  projection_defaults : List ProjectionDefault
  projector_broadcast : Nat
deriving Repr

/-! ## ProjectorViewSet operations -/

/-- The entries of a config mapping whose `stable` field is truthy
(`if value.get("stable"):` in `prune` and `clear`). -/
def stableOnly (cfg : List (String × Json)) : List (String × Json) :=
  cfg.filter (fun kv => truthy (pyGet kv.2 ("stable")))

/-- `ProjectorViewSet.clear`: keep only the stable entries.  The
source builds a fresh dict from the stable entries and saves it; no
other projector field (in particular not `scroll`) is touched. -/
def clear (p : Projector) : Projector :=
  { p with config := stableOnly p.config }

/-- `ProjectorViewSet.clear_elements` endpoint: fetches the projector
and delegates to `clear`. -/
def clear_elements (p : Projector) : Projector :=
  clear p

/-- `ProjectorViewSet.prune`: keep the stable entries, then insert each
input element under a freshly minted `uuid.uuid4().hex` key.  The
fresh keys are passed in as `ks` (the i-th element receives the i-th
key).  Afterwards the scroll level is reset if it was nonzero. -/
def prune (p : Projector) (els : List Json) (ks : List String) : Projector :=
  { p with
      config := (ks.zip els).foldl (fun acc kv => dset acc kv.1 kv.2)
        (stableOnly p.config),
      scroll := if p.scroll ≠ 0 then 0 else p.scroll }

/-- Syntax loop of `update_elements`: every key must parse as a UUID
and every value must be a dict, else the request is rejected with one
shared message. -/
def updateSyntaxOK (kvs : List (String × Json)) : Bool :=
  kvs.all (fun kv => uuidHexValid kv.1 && isDict kv.2)

/-- `element.update(partial)` where both are dicts; config values are
element dicts by the store invariant (a non-dict would raise
AttributeError in the source and is left unchanged here). -/
def jUpdate (e u : Json) : Json :=
  match e, u with
  | .obj es, .obj us => .obj (dictUpdate es us)
  | _, _ => e

/-- Existence-check-and-merge loop of `update_elements`: abort with
"Wrong UUID" on the first key absent from the config. -/
def applyUpdates : List (String × Json) → List (String × Json) →
    Except String (List (String × Json))
  | cfg, [] => Except.ok cfg
  | cfg, (k, v) :: rest =>
    match dlookup cfg k with
    | some e => applyUpdates (dset cfg k (jUpdate e v)) rest
    | none => Except.error ("Invalid projector element. Wrong UUID.")

/-- `ProjectorViewSet.update_elements`.  `Except.ok` is the
`serializer.save()` persist point; every error is raised before it. -/
def update_elements (data : Json) (p : Projector) : Except String Projector :=
  match data with
  | .obj kvs =>
    if updateSyntaxOK kvs then
      match applyUpdates p.config kvs with
      | .ok cfg => Except.ok { p with config := cfg }
      | .error m => Except.error m
    else
      Except.error
        ("Data must be a dictionary with UUIDs as keys and dictionaries as values.")
  | _ => Except.error ("Data must be a dictionary.")

/-- Deletion loop of `deactivate_elements`: `del projector_config[key]`
raises KeyError — reported as "Invalid UUID." — on a missing key.  A
non-string item (a 32-digit int can pass the syntax check) never
equals a string dict key, so it also raises KeyError. -/
def delKeys : List (String × Json) → List Json →
    Except String (List (String × Json))
  | cfg, [] => Except.ok cfg
  | cfg, j :: rest =>
    match j with
    | .str s =>
      if dmem cfg s then delKeys (ddel cfg s) rest
      else Except.error ("Invalid UUID.")
    | _ => Except.error ("Invalid UUID.")

/-- `ProjectorViewSet.deactivate_elements`.  `Except.ok` is the
`serializer.save()` persist point; every error is raised before it. -/
def deactivate_elements (data : Json) (p : Projector) :
    Except String Projector :=
  match data with
  | .arr items =>
    if items.all uuidCheckJson then
      match delKeys p.config items with
      | .ok cfg => Except.ok { p with config := cfg }
      | .error m => Except.error m
    else Except.error ("Data must be a list of hex UUIDs.")
  | _ => Except.error ("Data must be a list of hex UUIDs.")

/-! ## The `project` operation -/

/-- The `for id in clear_projector_ids: isinstance(id, int)` loop,
collecting the ids (Python bools count as ints). -/
def checkIds : List Json → Except String (List Int)
  | [] => Except.ok []
  | j :: rest =>
    match jsonAsInt j with
    | some n => (checkIds rest).map (fun l => n :: l)
    | none => Except.error ("The id \"" ++ pyStr j ++ "\" has to be int.")

/-- Validation of `request.data.get("clear_ids", [])`.  Python strings
and dicts are iterable (yielding characters / keys, none of which is an
int); null and numbers are not iterable and raise TypeError instead of
a ValidationError. -/
def checkClearIds : Json → Except String (List Int)
  | .arr xs => checkIds xs
  | .str s =>
    match s.data with
    | [] => Except.ok []
    | c :: _ =>
      Except.error ("The id \"" ++ String.mk [c] ++ "\" has to be int.")
  | .obj kvs =>
    match kvs with
    | [] => Except.ok []
    | (k, _) :: _ => Except.error ("The id \"" ++ k ++ "\" has to be int.")
  | _ => Except.error ("TypeError: clear_ids is not iterable")

/-- The validation prefix of `ProjectorViewSet.project`, in source
order: data must be a dict; every clear id must be an int; if `prune`
is given (and not null) it must be a dict, its `id` an int, the target
projector must exist, its `element` (default `\x7b\x7d`) must be a dict
with a non-null `name`.  Nothing is mutated before this returns. -/
def projectParse (s : CoreState) (data : Json) :
    Except String (List Int × Option (Int × Json)) :=
  match data with
  | .obj _ =>
    match checkClearIds (jgetD data ("clear_ids") (Json.arr [])) with
    | .error m => Except.error m
    | .ok cids =>
      match jget data ("prune") with
      | none => Except.ok (cids, none)
      | some .null => Except.ok (cids, none)
      | some (.obj pkvs) =>
        match jsonAsInt (pyGet (Json.obj pkvs) ("id")) with
        | none => Except.error ("The prune projector id has to be int.")
        | some pid =>
          if s.projectors.any (fun p => (p.id : Int) == pid) then
            match jgetD (Json.obj pkvs) ("element") (Json.obj []) with
            | .obj ekvs =>
              if isNone (pyGet (Json.obj ekvs) ("name")) then
                Except.error ("Invalid projector element. Name is missing.")
              else Except.ok (cids, some (pid, Json.obj ekvs))
            | _ => Except.error ("Prune element has to be a dict or not given.")
          else
            Except.error
              ("The projector with id \"" ++ toString pid ++ "\" does not exist")
      | some _ => Except.error ("Prune has to be an object.")
  | _ => Except.error ("The data has to be a dict.")

/-- `ProjectorViewSet.project`.  Phase 1 clears every existing
projector whose id is listed (`filter(pk__in=...)` silently skips
missing ids); phase 2 prunes the target with the single element.
Errors carry the store state at the moment of the raise: every
validation error is raised before phase 1, so it carries the original
state.  The `DoesNotExist` branch after phase 1 is unreachable because
the target's existence was checked and clearing deletes no projector. -/
def project (s : CoreState) (ks : List String) (data : Json) :
    Except (String × CoreState) CoreState :=
  match projectParse s data with
  | .error m => Except.error (m, s)
  | .ok (cids, pruneInfo) =>
    let s1 : CoreState :=
      { s with projectors :=
          (s.projectors.map
            (fun p => if cids.contains (p.id : Int) then clear p else p)) }
    match pruneInfo with
    | none => Except.ok s1
    | some (pid, el) =>
      match s1.projectors.find? (fun p => (p.id : Int) == pid) with
      | some p =>
        Except.ok
          { s1 with projectors :=
              (s1.projectors.map
                (fun q => if q.id = p.id then prune p [el] ks else q)) }
      | none => Except.error (("Projector.DoesNotExist"), s1)

/-- `ProjectorViewSet.destroy`: reassign every ProjectionDefault that
points at the destroyed projector to the projector with pk 1, reset
`projector_broadcast` if it pointed here, then delete the row.
`none` models the 404 of `get_object` on a missing pk. -/
def destroy (s : CoreState) (pk : Nat) : Option CoreState :=
  match s.projectors.find? (fun p => p.id == pk) with
  | none => none
  | some _ =>
    some
      { projectors := s.projectors.filter (fun p => p.id ≠ pk),
        projection_defaults := s.projection_defaults.map
          (fun pd => if pd.projector_id = pk then { pd with projector_id := 1 }
            else pd),
        projector_broadcast :=
          if s.projector_broadcast = pk then 0 else s.projector_broadcast }

/-- Whether a raw JSON list item is a key present in the config as
Python sees it: config keys are strings minted by `uuid4().hex`, so a
non-string item never equals one. -/
def itemKeyIn (cfg : List (String × Json)) : Json → Bool
  | .str s => dmem cfg s
  | _ => false

/-! ## Concrete fixtures used by counterexamples and witnesses -/

def elPlain : Json := Json.obj [(("name"), Json.str ("motion/slide"))]

def elStable : Json :=
  Json.obj [(("name"), Json.str ("core/countdown")), (("stable"), Json.bool true)]

def keyA : String := "aaaa0878cdc04abfbd64f3177a21891a"

def keyB : String := "bbbb0878cdc04abfbd64f3177a21891a"

def pA : Projector :=
  { id := 1, config := [((keyA), elPlain), ((keyB), elStable)], scroll := 5,
    scale := 0, width := 800, height := 340, blank := false }

def pB : Projector := { pA with id := 2, scroll := 0 }

def pC : Projector := { pA with id := 5 }

def sA : CoreState :=
  { projectors := [pA, pB], projection_defaults := [⟨7, 2⟩, ⟨8, 1⟩],
    projector_broadcast := 0 }

def sB : CoreState :=
  { projectors := [pA, pC], projection_defaults := [⟨7, 5⟩, ⟨8, 1⟩],
    projector_broadcast := 5 }

/-- Result of `destroy sB 5`. -/
def sB' : CoreState :=
  { projectors := [pA], projection_defaults := [⟨7, 1⟩, ⟨8, 1⟩],
    projector_broadcast := 0 }

/-- The element key of the spec's UpdateElements example. -/
def uKey : String := "191c0878cdc04abfbd64f3177a21891a"

/-- The element of the spec's UpdateElements example. -/
def eX : Json := Json.obj [(("name"), Json.str ("a")), (("x"), Json.int 1)]

/-- The partial update of the spec's UpdateElements example. -/
def uUpd : Json := Json.obj [(("x"), Json.int 2), (("y"), Json.int 3)]

/-- A projector holding only the example element. -/
def pU : Projector := { pA with config := [((uKey), eX)] }

/-- Result of `destroy sA 1`. -/
def sA' : CoreState :=
  { projectors := [pB], projection_defaults := [⟨7, 2⟩, ⟨8, 1⟩],
    projector_broadcast := 0 }

/-- A Project request that clears projector 1 and prunes onto the
nonexistent projector 99. -/
def dC1 : Json :=
  Json.obj [(("clear_ids"), Json.arr [Json.int 1]),
    (("prune"), Json.obj [(("id"), Json.int 99)])]

/-- A Project request whose prune element lacks a `name` (the default
empty element) and whose prune target 3 does not exist. -/
def dC2 : Json := Json.obj [(("prune"), Json.obj [(("id"), Json.int 3)])]

/-! ## Association-list lemmas -/

theorem dmem_iff (d : List (String × Json)) (k : String) :
    dmem d k = true ↔ k ∈ d.map Prod.fst := by
  induction d with
  | nil => simp [dmem, dlookup]
  | cons kv rest ih =>
    by_cases h : kv.1 = k
    · simp [dmem, dlookup, h]
    · simp only [dmem, dlookup, if_neg h, List.map_cons, List.mem_cons]
      rw [← dmem]
      constructor
      · intro hm
        exact Or.inr (ih.1 hm)
      · rintro (hk | hm)
        · exact absurd hk.symm h
        · exact ih.2 hm

theorem dmem_false_iff (d : List (String × Json)) (k : String) :
    dmem d k = false ↔ dlookup d k = none := by
  unfold dmem
  cases dlookup d k <;> simp

theorem dlookup_dset_self (d : List (String × Json)) (k : String) (v : Json) :
    dlookup (dset d k v) k = some v := by
  induction d with
  | nil => simp [dset, dlookup]
  | cons kv rest ih =>
    by_cases h : kv.1 = k
    · simp [dset, dlookup, h]
    · simp [dset, dlookup, h, ih]

theorem dlookup_append (d1 d2 : List (String × Json)) (k : String) :
    dlookup (d1 ++ d2) k =
      match dlookup d1 k with
      | some v => some v
      | none => dlookup d2 k := by
  induction d1 with
  | nil => simp [dlookup]
  | cons kv rest ih =>
    by_cases h : kv.1 = k
    · simp [dlookup, h]
    · simp [dlookup, h, ih]

theorem dlookup_dset_ne (d : List (String × Json)) (k k' : String) (v : Json)
    (h : k' ≠ k) : dlookup (dset d k v) k' = dlookup d k' := by
  have h2 : ¬(k = k') := fun hh => h hh.symm
  induction d with
  | nil => simp [dset, dlookup, h2]
  | cons kv rest ih =>
    by_cases hk : kv.1 = k
    · rw [show dset (kv :: rest) k v = (k, v) :: rest by simp [dset, hk]]
      have hkv : ¬(kv.1 = k') := by rw [hk]; exact h2
      simp [dlookup, h2, hkv]
    · rw [show dset (kv :: rest) k v = kv :: dset rest k v by simp [dset, hk]]
      by_cases hk' : kv.1 = k'
      · simp [dlookup, hk']
      · simp [dlookup, hk', ih]

theorem dset_keys (d : List (String × Json)) (k : String) (v : Json)
    (h : dmem d k = true) :
    (dset d k v).map Prod.fst = d.map Prod.fst := by
  induction d with
  | nil => simp [dmem, dlookup] at h
  | cons kv rest ih =>
    by_cases hk : kv.1 = k
    · simp [dset, hk]
    · have h' : dmem rest k = true := by
        simpa [dmem, dlookup, hk] using h
      simp [dset, hk, ih h']

theorem dset_notmem (d : List (String × Json)) (k : String) (v : Json)
    (h : dmem d k = false) : dset d k v = d ++ [(k, v)] := by
  induction d with
  | nil => simp [dset]
  | cons kv rest ih =>
    have hk : ¬(kv.1 = k) := by
      intro hh
      simp [dmem, dlookup, hh] at h
    have h' : dmem rest k = false := by
      simpa [dmem, dlookup, hk] using h
    simp [dset, hk, ih h']

theorem dmem_ddel_mono (d : List (String × Json)) (s k : String)
    (h : dmem (ddel d s) k = true) : dmem d k = true := by
  induction d with
  | nil => simpa [ddel] using h
  | cons kv rest ih =>
    by_cases hs : kv.1 = s
    · rw [show ddel (kv :: rest) s = rest by simp [ddel, hs]] at h
      by_cases hk : kv.1 = k
      · simp [dmem, dlookup, hk]
      · simpa [dmem, dlookup, hk] using h
    · rw [show ddel (kv :: rest) s = kv :: ddel rest s by simp [ddel, hs]] at h
      by_cases hk : kv.1 = k
      · simp [dmem, dlookup, hk]
      · simp only [dmem, dlookup, if_neg hk] at h ⊢
        exact ih h

theorem dmem_stableOnly_mono (cfg : List (String × Json)) (k : String)
    (h : dmem cfg k = false) : dmem (stableOnly cfg) k = false := by
  by_contra hne
  have h1 : dmem (stableOnly cfg) k = true := by
    cases hmm : dmem (stableOnly cfg) k
    · exact absurd hmm hne
    · rfl
  rw [dmem_iff] at h1
  rcases List.mem_map.1 h1 with ⟨kv, hkv, hfst⟩
  have hin : kv ∈ cfg := List.mem_filter.1 hkv |>.1
  have : dmem cfg k = true :=
    (dmem_iff cfg k).2 (List.mem_map.2 ⟨kv, hin, hfst⟩)
  rw [this] at h
  exact Bool.true_eq_false.mp h

theorem foldl_dset_append (l : List (String × Json))
    (d : List (String × Json))
    (hfresh : ∀ kv ∈ l, dmem d kv.1 = false)
    (hnd : (l.map Prod.fst).Nodup) :
    l.foldl (fun acc kv => dset acc kv.1 kv.2) d = d ++ l := by
  induction l generalizing d with
  | nil => simp
  | cons kv rest ih =>
    have h1 : dset d kv.1 kv.2 = d ++ [(kv.1, kv.2)] :=
      dset_notmem d kv.1 kv.2 (hfresh kv (List.mem_cons_self kv rest))
    rw [List.map_cons] at hnd
    obtain ⟨hhead, hnd'⟩ := List.nodup_cons.1 hnd
    have hfresh' : ∀ kv' ∈ rest, dmem (d ++ [(kv.1, kv.2)]) kv'.1 = false := by
      intro kv' hkv'
      have hne : ¬(kv.1 = kv'.1) := by
        intro hh
        exact hhead (by rw [hh]; exact List.mem_map_of_mem Prod.fst hkv')
      have hd : dmem d kv'.1 = false := hfresh kv' (List.mem_cons_of_mem kv hkv')
      rw [dmem_false_iff] at hd ⊢
      rw [dlookup_append, hd]
      simp [dlookup, hne]
    calc ((kv :: rest).foldl (fun acc kv => dset acc kv.1 kv.2) d)
        = rest.foldl (fun acc kv => dset acc kv.1 kv.2) (dset d kv.1 kv.2) := by
          simp [List.foldl_cons]
      _ = rest.foldl (fun acc kv => dset acc kv.1 kv.2) (d ++ [(kv.1, kv.2)]) := by
          rw [h1]
      _ = (d ++ [(kv.1, kv.2)]) ++ rest := ih (d ++ [(kv.1, kv.2)]) hfresh' hnd'
      _ = d ++ (kv :: rest) := by simp

theorem dlookup_foldl_dset_notmem (l : List (String × Json))
    (d : List (String × Json)) (k : String) (h : k ∉ l.map Prod.fst) :
    dlookup (l.foldl (fun acc kv => dset acc kv.1 kv.2) d) k = dlookup d k := by
  induction l generalizing d with
  | nil => rfl
  | cons kv rest ih =>
    have hne : k ≠ kv.1 := by
      intro hh
      exact h (by simp [hh])
    have hrest : k ∉ rest.map Prod.fst := by
      intro hh
      exact h (by simp [hh])
    calc dlookup ((kv :: rest).foldl (fun acc kv => dset acc kv.1 kv.2) d) k
        = dlookup (rest.foldl (fun acc kv => dset acc kv.1 kv.2)
            (dset d kv.1 kv.2)) k := by simp [List.foldl_cons]
      _ = dlookup (dset d kv.1 kv.2) k := ih (dset d kv.1 kv.2) hrest
      _ = dlookup d k := dlookup_dset_ne d kv.1 k kv.2 hne

theorem dmem_dset (d : List (String × Json)) (k k' : String) (v : Json)
    (h : dmem d k' = true) : dmem (dset d k v) k' = true := by
  by_cases hk : k' = k
  · subst hk
    unfold dmem
    rw [dlookup_dset_self]
    rfl
  · unfold dmem
    rw [dlookup_dset_ne d k k' v hk]
    exact h

/-- When every updated key exists, the merge loop of `update_elements`
succeeds and leaves the key sequence of the config untouched. -/
theorem applyUpdates_ok (kvs : List (String × Json))
    (cfg : List (String × Json))
    (hex : ∀ kv ∈ kvs, dmem cfg kv.1 = true) :
    ∃ cfg', applyUpdates cfg kvs = Except.ok cfg' ∧
      cfg'.map Prod.fst = cfg.map Prod.fst := by
  induction kvs generalizing cfg with
  | nil => exact ⟨cfg, rfl, rfl⟩
  | cons kv rest ih =>
    have hm : dmem cfg kv.1 = true := hex kv (List.mem_cons_self kv rest)
    obtain ⟨e, he⟩ := Option.isSome_iff_exists.1 hm
    have hex' : ∀ kv' ∈ rest, dmem (dset cfg kv.1 (jUpdate e kv.2)) kv'.1 = true :=
      fun kv' hkv' =>
        dmem_dset cfg kv.1 kv'.1 (jUpdate e kv.2)
          (hex kv' (List.mem_cons_of_mem kv hkv'))
    obtain ⟨cfg', hok, hkeys⟩ := ih (dset cfg kv.1 (jUpdate e kv.2)) hex'
    refine ⟨cfg', ?_, ?_⟩
    · show applyUpdates cfg (kv :: rest) = Except.ok cfg'
      rw [show applyUpdates cfg (kv :: rest)
          = applyUpdates (dset cfg kv.1 (jUpdate e kv.2)) rest by
        simp [applyUpdates, he]]
      exact hok
    · rw [hkeys]
      exact dset_keys cfg kv.1 (jUpdate e kv.2) hm

/-- The merge loop does not disturb keys outside the update set. -/
theorem applyUpdates_notmem (kvs : List (String × Json))
    (cfg cfg' : List (String × Json)) (k : String)
    (hok : applyUpdates cfg kvs = Except.ok cfg')
    (hnm : k ∉ kvs.map Prod.fst) :
    dlookup cfg' k = dlookup cfg k := by
  induction kvs generalizing cfg with
  | nil =>
    cases hok
    rfl
  | cons kv rest ih =>
    have hne : k ≠ kv.1 := by
      intro hh
      exact hnm (by simp [hh])
    have hrest : k ∉ rest.map Prod.fst := by
      intro hh
      exact hnm (by simp [hh])
    cases he : dlookup cfg kv.1 with
    | none =>
      rw [show applyUpdates cfg (kv :: rest) = Except.error
          ("Invalid projector element. Wrong UUID.") by
        simp [applyUpdates, he]] at hok
      cases hok
    | some e =>
      rw [show applyUpdates cfg (kv :: rest)
          = applyUpdates (dset cfg kv.1 (jUpdate e kv.2)) rest by
        simp [applyUpdates, he]] at hok
      calc dlookup cfg' k
          = dlookup (dset cfg kv.1 (jUpdate e kv.2)) k :=
            ih (dset cfg kv.1 (jUpdate e kv.2)) hok hrest
        _ = dlookup cfg k := dlookup_dset_ne cfg kv.1 k (jUpdate e kv.2) hne

/-- Per-key result of the merge loop when the update keys are distinct:
each updated key ends up holding its old element merged with the
partial element. -/
theorem applyUpdates_lookup (kvs : List (String × Json))
    (cfg cfg' : List (String × Json))
    (hok : applyUpdates cfg kvs = Except.ok cfg')
    (hnd : (kvs.map Prod.fst).Nodup) :
    ∀ k v, (k, v) ∈ kvs → ∀ e, dlookup cfg k = some e →
      dlookup cfg' k = some (jUpdate e v) := by
  induction kvs generalizing cfg with
  | nil =>
    intro k v hkv
    cases hkv
  | cons kv rest ih =>
    intro k v hkv e he
    rw [List.map_cons] at hnd
    obtain ⟨hhead, hnd'⟩ := List.nodup_cons.1 hnd
    cases he0 : dlookup cfg kv.1 with
    | none =>
      rw [show applyUpdates cfg (kv :: rest) = Except.error
          ("Invalid projector element. Wrong UUID.") by
        simp [applyUpdates, he0]] at hok
      cases hok
    | some e0 =>
      rw [show applyUpdates cfg (kv :: rest)
          = applyUpdates (dset cfg kv.1 (jUpdate e0 kv.2)) rest by
        simp [applyUpdates, he0]] at hok
      rcases List.mem_cons.1 hkv with heq | hmem
      · have hk : kv.1 = k := by rw [← heq]
        have hv : kv.2 = v := by rw [← heq]
        rw [hk] at he0 hhead
        rw [hk, hv] at hok
        have hee : e0 = e := by
          rw [he0] at he
          exact Option.some.inj he
        rw [applyUpdates_notmem rest (dset cfg k (jUpdate e0 v)) cfg' k hok hhead]
        rw [dlookup_dset_self cfg k (jUpdate e0 v), hee]
      · have hkr : k ∈ rest.map Prod.fst :=
          List.mem_map.2 ⟨(k, v), hmem, rfl⟩
        have hne : k ≠ kv.1 := by
          intro hh
          rw [hh] at hkr
          exact hhead hkr
        have he' : dlookup (dset cfg kv.1 (jUpdate e0 kv.2)) k = some e := by
          rw [dlookup_dset_ne cfg kv.1 k (jUpdate e0 kv.2) hne]
          exact he
        exact ih (dset cfg kv.1 (jUpdate e0 kv.2)) hok hnd' k v hmem e he'

/-- Field-level shallow-merge semantics of `dict.update`: fields named
in the partial object win, all other fields of the old element are
kept. -/
theorem dictUpdate_lookup (us es : List (String × Json)) (f : String)
    (hnd : (us.map Prod.fst).Nodup) :
    dlookup (dictUpdate es us) f =
      ((dlookup us f).elim (dlookup es f) (fun v => some v)) := by
  induction us generalizing es with
  | nil => simp [dictUpdate, dlookup]
  | cons u rest ih =>
    rw [List.map_cons] at hnd
    obtain ⟨hhead, hnd'⟩ := List.nodup_cons.1 hnd
    have hstep : dictUpdate es (u :: rest) = dictUpdate (dset es u.1 u.2) rest := by
      simp [dictUpdate, List.foldl_cons]
    rw [hstep]
    by_cases hf : u.1 = f
    · subst hf
      have hrest : dlookup rest u.1 = none := by
        rw [← dmem_false_iff]
        cases hd : dmem rest u.1
        · rfl
        · exact absurd ((dmem_iff rest u.1).1 hd) hhead
      rw [ih (dset es u.1 u.2) hnd']
      rw [hrest]
      simp only [Option.elim]
      rw [dlookup_dset_self]
      simp [dlookup]
    · rw [ih (dset es u.1 u.2) hnd']
      rw [dlookup_dset_ne es u.1 f u.2 (fun hh => hf hh.symm)]
      simp [dlookup, hf]

/-! ## Claim theorems -/

/-- C3, counterexample: the claim says ClearElements resets a nonzero
scroll to 0, but `ProjectorViewSet.clear` only replaces the config:
on the projector `pA` with scroll 5 the scroll is still 5 — not 0 —
after clearing through the `clear_elements` endpoint. -/
theorem C3_counterexample :
    pA.scroll ≠ 0 ∧ (clear_elements pA).scroll ≠ 0 := by
  decide

/-- C3 (amended): ClearElements keeps exactly the stable entries of
the element mapping and leaves `scroll` unchanged; the reset of a
nonzero scroll to 0 is performed only by PruneElements. -/
theorem C3_clear_keeps_scroll (p : Projector) (els : List Json)
    (ks : List String) :
    (clear_elements p).config = stableOnly p.config ∧
    (clear_elements p).scroll = p.scroll ∧
    (prune p els ks).scroll = 0 := by
  refine ⟨rfl, rfl, ?_⟩
  by_cases h : p.scroll = 0 <;> simp [prune, h]

/-- C8: PruneElements with an empty input list and ClearElements
produce identical element mappings on every starting projector state
(whatever fresh keys were minted — none are consumed). -/
theorem C8_prune_nil_eq_clear (p : Projector) (ks : List String) :
    (prune p [] ks).config = (clear p).config := by
  simp [prune, clear, List.zip_nil_right]

/-- C4: PruneElements keeps exactly the stably-marked entries of the
previous mapping under their existing keys, appending one fresh-keyed
entry per input element, and resets the scroll to 0; all non-stable
prior content is discarded.  The fresh `uuid4().hex` keys are distinct
and unused with overwhelming probability, which the hypotheses state
explicitly. -/
theorem C4_prune_spec (p : Projector) (els : List Json) (ks : List String)
    (hlen : ks.length = els.length) (hnd : ks.Nodup)
    (hfresh : ∀ k ∈ ks, dmem p.config k = false) :
    (prune p els ks).config = stableOnly p.config ++ ks.zip els ∧
    (prune p els ks).scroll = 0 := by
  constructor
  · show (ks.zip els).foldl (fun acc kv => dset acc kv.1 kv.2)
        (stableOnly p.config) = stableOnly p.config ++ ks.zip els
    apply foldl_dset_append
    · intro kv hkv
      obtain ⟨a, b⟩ := kv
      have hk : a ∈ ks := (List.of_mem_zip hkv).1
      exact dmem_stableOnly_mono p.config a (hfresh a hk)
    · rw [List.map_fst_zip ks els (le_of_eq hlen)]
      exact hnd
  · by_cases h : p.scroll = 0 <;> simp [prune, h]

/-- C4 witness: prune `pA` (one plain, one stable entry, scroll 5)
with one element under the fresh key `keyB2`. -/
theorem C4_witness :
    ((["cccc0878cdc04abfbd64f3177a21891a"] : List String).length
        = ([elPlain] : List Json).length ∧
      (["cccc0878cdc04abfbd64f3177a21891a"] : List String).Nodup ∧
      (∀ k ∈ (["cccc0878cdc04abfbd64f3177a21891a"] : List String),
        dmem pA.config k = false)) ∧
    ((prune pA [elPlain] ["cccc0878cdc04abfbd64f3177a21891a"]).config
        = stableOnly pA.config
            ++ (["cccc0878cdc04abfbd64f3177a21891a"] : List String).zip [elPlain] ∧
      (prune pA [elPlain] ["cccc0878cdc04abfbd64f3177a21891a"]).scroll = 0) :=
  ⟨⟨rfl, by decide, by decide⟩,
    C4_prune_spec pA [elPlain] ["cccc0878cdc04abfbd64f3177a21891a"] rfl
      (by decide) (by decide)⟩

/-- C6: a DeactivateElements request whose items all pass the UUID
syntax check but contain at least one key absent from the current
mapping is rejected with "Invalid UUID."; the error is raised before
the `serializer.save()` persist point, so nothing is persisted or
notified. -/
theorem C6_deactivate_aborts (p : Projector) (items : List Json)
    (hsyn : ∀ j ∈ items, uuidCheckJson j = true)
    (habs : ∃ j ∈ items, itemKeyIn p.config j = false) :
    deactivate_elements (Json.arr items) p = Except.error ("Invalid UUID.") := by
  have hall : items.all uuidCheckJson = true := List.all_eq_true.2 hsyn
  have hdel : ∀ cfg : List (String × Json),
      (∃ j ∈ items, itemKeyIn cfg j = false) →
      delKeys cfg items = Except.error ("Invalid UUID.") := by
    clear habs hsyn hall
    induction items with
    | nil =>
      intro cfg habs
      obtain ⟨j, hj, _⟩ := habs
      cases hj
    | cons j0 rest ih =>
      intro cfg habs
      cases j0 with
      | str s =>
        by_cases hm : dmem cfg s = true
        · have hstep : delKeys cfg (Json.str s :: rest)
              = delKeys (ddel cfg s) rest := by
            simp [delKeys, hm]
          rw [hstep]
          apply ih
          obtain ⟨j, hj, hja⟩ := habs
          rcases List.mem_cons.1 hj with heq | hmem
          · rw [heq] at hja
            simp only [itemKeyIn] at hja
            rw [hm] at hja
            cases hja
          · refine ⟨j, hmem, ?_⟩
            cases j with
            | str s' =>
              simp only [itemKeyIn] at hja ⊢
              cases hdd : dmem (ddel cfg s) s'
              · rfl
              · have hc : dmem cfg s' = true := dmem_ddel_mono cfg s s' hdd
                rw [hc] at hja
                cases hja
            | null => rfl
            | bool b => rfl
            | int n => rfl
            | arr xs => rfl
            | obj kvs => rfl
        · have hm' : dmem cfg s = false := by
            cases hmm : dmem cfg s
            · rfl
            · exact absurd hmm hm
          simp [delKeys, hm']
      | null => rfl
      | bool b => rfl
      | int n => rfl
      | arr xs => rfl
      | obj kvs => rfl
  have herr := hdel p.config habs
  simp [deactivate_elements, hall, herr]

/-- C6 witness: deactivating a syntactically valid but absent key on
`pA` aborts with "Invalid UUID.". -/
theorem C6_witness :
    (∀ j ∈ ([Json.str ("dddd0878cdc04abfbd64f3177a21891a")] : List Json),
      uuidCheckJson j = true) ∧
    deactivate_elements (Json.arr [Json.str ("dddd0878cdc04abfbd64f3177a21891a")]) pA
      = Except.error ("Invalid UUID.") :=
  ⟨by decide,
    C6_deactivate_aborts pA [Json.str ("dddd0878cdc04abfbd64f3177a21891a")]
      (by decide)
      ⟨Json.str ("dddd0878cdc04abfbd64f3177a21891a"), List.mem_singleton.2 rfl,
        by decide⟩⟩

/-- C5: when every key of an UpdateElements request exists in the
current mapping (and the request passed the syntax check), the request
succeeds, the key sequence of the mapping is unchanged, and each
element is shallow-merged field by field: fields named in the partial
element overwrite, all other fields are kept. -/
theorem C5_update_merge (p : Projector) (kvs : List (String × Json))
    (hsyn : updateSyntaxOK kvs = true)
    (hex : ∀ kv ∈ kvs, dmem p.config kv.1 = true)
    (hnd : (kvs.map Prod.fst).Nodup) :
    ∃ p', update_elements (Json.obj kvs) p = Except.ok p' ∧
      p'.config.map Prod.fst = p.config.map Prod.fst ∧
      ∀ k v, (k, v) ∈ kvs → ∀ es us,
        dlookup p.config k = some (Json.obj es) → v = Json.obj us →
        dlookup p'.config k = some (Json.obj (dictUpdate es us)) ∧
        ((us.map Prod.fst).Nodup → ∀ f,
          dlookup (dictUpdate es us) f =
            ((dlookup us f).elim (dlookup es f) (fun w => some w))) := by
  obtain ⟨cfg', hok, hkeys⟩ := applyUpdates_ok kvs p.config hex
  refine ⟨{ p with config := cfg' }, ?_, ?_, ?_⟩
  · simp [update_elements, hsyn, hok]
  · simpa using hkeys
  · intro k v hkv es us hes hv
    constructor
    · have hl := applyUpdates_lookup kvs p.config cfg' hok hnd k v hkv
        (Json.obj es) hes
      rw [hv] at hl
      simpa [jUpdate] using hl
    · intro hund f
      exact dictUpdate_lookup us es f hund

/-- C5 witness: the spec's own example — element
`\x7bname:"a", x:1\x7d` updated with `\x7bx:2, y:3\x7d` becomes
`\x7bname:"a", x:2, y:3\x7d`, with the key set unchanged. -/
theorem C5_witness :
    (updateSyntaxOK [((uKey), uUpd)] = true ∧
      (∀ kv ∈ [((uKey), uUpd)], dmem pU.config kv.1 = true) ∧
      (([((uKey), uUpd)].map Prod.fst).Nodup) ∧
      update_elements (Json.obj [((uKey), uUpd)]) pU
        = Except.ok { pU with config := [((uKey), Json.obj
            [(("name"), Json.str ("a")), (("x"), Json.int 2),
              (("y"), Json.int 3)])] }) ∧
    (∃ p', update_elements (Json.obj [((uKey), uUpd)]) pU = Except.ok p' ∧
      p'.config.map Prod.fst = pU.config.map Prod.fst ∧
      ∀ k v, (k, v) ∈ [((uKey), uUpd)] → ∀ es us,
        dlookup pU.config k = some (Json.obj es) → v = Json.obj us →
        dlookup p'.config k = some (Json.obj (dictUpdate es us)) ∧
        ((us.map Prod.fst).Nodup → ∀ f,
          dlookup (dictUpdate es us) f =
            ((dlookup us f).elim (dlookup es f) (fun w => some w)))) :=
  ⟨⟨by decide, by decide, by decide, rfl⟩,
    C5_update_merge pU [((uKey), uUpd)] (by decide) (by decide) (by decide)⟩

/-- C9: the syntax check `uuid.UUID(hex=str(key))` accepts hyphenated,
braced and urn-prefixed UUID forms, not only bare 32-hex-digit
strings; any such accepted key that is not literally present in the
mapping then fails the existence check of `update_elements` with
"Wrong UUID" and of `deactivate_elements` with "Invalid UUID" (rather
than the malformed-data error). -/
theorem C9_uuid_forms (p : Projector) (k : String) (vs : List (String × Json))
    (hk : uuidHexValid k = true) (habs : dmem p.config k = false) :
    uuidHexValid ("12345678-1234-1234-1234-123456789abc") = true ∧
    uuidHexValid ("\x7b12345678123412341234123456789abc\x7d") = true ∧
    uuidHexValid ("urn:uuid:12345678-1234-1234-1234-123456789abc") = true ∧
    update_elements (Json.obj [(k, Json.obj vs)]) p
      = Except.error ("Invalid projector element. Wrong UUID.") ∧
    deactivate_elements (Json.arr [Json.str k]) p
      = Except.error ("Invalid UUID.") := by
  refine ⟨by decide, by decide, by decide, ?_, ?_⟩
  · have hs : updateSyntaxOK [(k, Json.obj vs)] = true := by
      simp [updateSyntaxOK, hk, isDict]
    have hl : dlookup p.config k = none := (dmem_false_iff p.config k).1 habs
    simp [update_elements, hs, applyUpdates, hl]
  · have ha : ([Json.str k] : List Json).all uuidCheckJson = true := by
      simp [uuidCheckJson, hk]
    simp [deactivate_elements, ha, delKeys, habs]

/-- C9 witness: the hyphenated form itself is accepted by the syntax
check and rejected by the existence check on `pU`. -/
theorem C9_witness :
    (uuidHexValid ("12345678-1234-1234-1234-123456789abc") = true ∧
      dmem pU.config ("12345678-1234-1234-1234-123456789abc") = false) ∧
    (update_elements
        (Json.obj [(("12345678-1234-1234-1234-123456789abc"), Json.obj [])]) pU
      = Except.error ("Invalid projector element. Wrong UUID.") ∧
    deactivate_elements
        (Json.arr [Json.str ("12345678-1234-1234-1234-123456789abc")]) pU
      = Except.error ("Invalid UUID.")) :=
  ⟨⟨by decide, by decide⟩,
    ⟨(C9_uuid_forms pU ("12345678-1234-1234-1234-123456789abc") []
        (by decide) (by decide)).2.2.2.1,
      (C9_uuid_forms pU ("12345678-1234-1234-1234-123456789abc") []
        (by decide) (by decide)).2.2.2.2⟩⟩

/-- C7: after destroying a projector, every ProjectionDefault that
referenced it references projector 1 (no surviving ProjectionDefault
references the destroyed projector unless it was projector 1 itself),
ProjectionDefaults referencing other projectors are unchanged, and
`projector_broadcast` is reset to 0 exactly when it pointed at the
destroyed projector. -/
theorem C7_destroy_reassigns (s : CoreState) (pk : Nat) (s' : CoreState)
    (h : destroy s pk = some s') :
    (∀ pd ∈ s.projection_defaults, pd.projector_id = pk →
      (⟨pd.id, 1⟩ : ProjectionDefault) ∈ s'.projection_defaults) ∧
    (∀ pd ∈ s.projection_defaults, pd.projector_id ≠ pk →
      pd ∈ s'.projection_defaults) ∧
    (∀ pd ∈ s'.projection_defaults, pd.projector_id = pk → pk = 1) ∧
    (s.projector_broadcast = pk → s'.projector_broadcast = 0) ∧
    (s.projector_broadcast ≠ pk → s'.projector_broadcast = s.projector_broadcast) := by
  unfold destroy at h
  split at h
  · cases h
  · have hs' := Option.some.inj h
    subst hs'
    refine ⟨?_, ?_, ?_, ?_, ?_⟩
    · intro pd hpd hid
      simp only []
      refine List.mem_map.2 ⟨pd, hpd, ?_⟩
      simp [hid]
    · intro pd hpd hid
      simp only []
      refine List.mem_map.2 ⟨pd, hpd, ?_⟩
      simp [hid]
    · intro pd' hpd' hid'
      simp only [] at hpd'
      obtain ⟨pd, hpd, hf⟩ := List.mem_map.1 hpd'
      by_cases hc : pd.projector_id = pk
      · rw [if_pos hc] at hf
        rw [← hf] at hid'
        exact hid'.symm
      · rw [if_neg hc] at hf
        rw [← hf] at hid'
        exact absurd hid' hc
    · intro heq
      simp [heq]
    · intro hne
      simp [hne]

/-- C7 witness: destroying projector 5 in `sB` (broadcast = 5, one
ProjectionDefault at 5, one at 1). -/
theorem C7_witness :
    destroy sB 5 = some sB' ∧
    (⟨7, 1⟩ : ProjectionDefault) ∈ sB'.projection_defaults ∧
    sB'.projector_broadcast = 0 :=
  ⟨rfl,
    (C7_destroy_reassigns sB 5 sB' rfl).1 ⟨7, 5⟩ (by decide) rfl,
    (C7_destroy_reassigns sB 5 sB' rfl).2.2.2.1 rfl⟩

/-- C10: destroying the projector with id 1 leaves every
ProjectionDefault exactly as it was — those that referenced projector
1 are "reassigned" to 1, i.e. still reference the destroyed projector,
which no surviving projector matches. -/
theorem C10_destroy_default_projector (s s' : CoreState)
    (h : destroy s 1 = some s') :
    s'.projection_defaults = s.projection_defaults ∧
    (∀ p ∈ s'.projectors, p.id ≠ 1) ∧
    (∀ pd ∈ s'.projection_defaults, pd.projector_id = 1 →
      ∀ p ∈ s'.projectors, p.id ≠ pd.projector_id) := by
  unfold destroy at h
  split at h
  · cases h
  · have hs' := Option.some.inj h
    subst hs'
    have hid : ∀ pd ∈ s.projection_defaults,
        (if pd.projector_id = 1 then ({ pd with projector_id := 1 } :
          ProjectionDefault) else pd) = pd := by
      intro pd _
      by_cases hc : pd.projector_id = 1
      · cases pd with
        | mk i pi =>
          simp only at hc
          rw [if_pos hc, hc]
      · rw [if_neg hc]
    have hmap : s.projection_defaults.map
        (fun pd => if pd.projector_id = 1 then ({ pd with projector_id := 1 } :
          ProjectionDefault) else pd) = s.projection_defaults := by
      calc s.projection_defaults.map
            (fun pd => if pd.projector_id = 1 then
              ({ pd with projector_id := 1 } : ProjectionDefault) else pd)
          = s.projection_defaults.map id := List.map_congr_left hid
        _ = s.projection_defaults := List.map_id s.projection_defaults
    have hp : ∀ p ∈ (s.projectors.filter (fun p => p.id ≠ 1)), p.id ≠ 1 := by
      intro p hp
      have := (List.mem_filter.1 hp).2
      simpa using this
    refine ⟨?_, ?_, ?_⟩
    · simpa using hmap
    · exact hp
    · intro pd hpd hid1 p hp1
      rw [hid1]
      exact hp p (by simpa using hp1)

/-- C10 witness: destroying projector 1 in `sA` leaves the
ProjectionDefault ⟨8, 1⟩ pointing at the destroyed projector 1, which
no surviving projector carries. -/
theorem C10_witness :
    destroy sA 1 = some sA' ∧
    sA'.projection_defaults = sA.projection_defaults ∧
    (∀ p ∈ sA'.projectors, p.id ≠ 1) :=
  ⟨rfl,
    (C10_destroy_default_projector sA sA' rfl).1,
    (C10_destroy_default_projector sA sA' rfl).2.1⟩

/-- C1: a Project request (dict body, `clear_ids` an array or absent)
whose `prune` names a target projector id that does not exist fails
with a ValidationError raised before phase 1, so the error carries the
original store state: no projector listed in `clear_ids` has been
cleared. -/
theorem C1_project_missing_target (s : CoreState)
    (kvs pkvs : List (String × Json)) (cxs : List Json) (pid : Int)
    (ks : List String)
    (hc : jgetD (Json.obj kvs) ("clear_ids") (Json.arr []) = Json.arr cxs)
    (hpr : jget (Json.obj kvs) ("prune") = some (Json.obj pkvs))
    (hid : jget (Json.obj pkvs) ("id") = some (Json.int pid))
    (hne : ∀ p ∈ s.projectors, (p.id : Int) ≠ pid) :
    ∃ m, project s ks (Json.obj kvs) = Except.error (m, s) := by
  have hany : s.projectors.any (fun p => (p.id : Int) == pid) = false := by
    rw [List.any_eq_false]
    intro p hp
    simp [hne p hp]
  have hidD : pyGet (Json.obj pkvs) ("id") = Json.int pid := by
    simp [pyGet, jgetD, hid]
  cases h2 : checkClearIds (Json.arr cxs) with
  | error m =>
    exact ⟨m, by simp [project, projectParse, hc, h2]⟩
  | ok cids =>
    refine ⟨("The projector with id \"" ++ toString pid ++ "\" does not exist"), ?_⟩
    simp [project, projectParse, hc, h2, hpr, hidD, jsonAsInt, hany]

/-- C1 witness: the request `dC1` (clear projector 1, prune target 99)
against `sA`, whose projectors have ids 1 and 2. -/
theorem C1_witness :
    (∀ p ∈ sA.projectors, (p.id : Int) ≠ 99) ∧
    (∃ m, project sA [] dC1 = Except.error (m, sA)) :=
  ⟨by decide,
    C1_project_missing_target sA
      [(("clear_ids"), Json.arr [Json.int 1]),
        (("prune"), Json.obj [(("id"), Json.int 99)])]
      [(("id"), Json.int 99)] [Json.int 1] 99 [] rfl rfl rfl (by decide)⟩

/-- C2, counterexample: the claim says the prune element's
missing-`name` validation precedes the target-existence check.  On the
request `dC2` — prune target 3 absent from `sA` AND prune element
lacking a `name` (the defaulted empty element) — the source reports
the nonexistent-projector error, not the missing-name error: the
existence check at views.py:383 runs before the name check at
views.py:395. -/
theorem C2_counterexample :
    project sA [] dC2
      = Except.error
          (("The projector with id \"3\" does not exist"), sA) ∧
    ("The projector with id \"3\" does not exist" : String)
      ≠ "Invalid projector element. Name is missing." :=
  ⟨rfl, by decide⟩

/-- C2 (amended): in `project`, the prune target's existence check runs
before the prune element's missing-name check: whenever the request
reaches the prune validation (dict body, well-typed `clear_ids`, prune
a dict with an int id) and the target does not exist, the reported
error is the nonexistent-projector error — even if the prune element
also lacks a non-null `name`. -/
theorem C2_existence_before_name (s : CoreState)
    (kvs pkvs : List (String × Json)) (cids : List Int) (pid : Int)
    (ks : List String)
    (hcids : checkClearIds (jgetD (Json.obj kvs) ("clear_ids") (Json.arr []))
      = Except.ok cids)
    (hpr : jget (Json.obj kvs) ("prune") = some (Json.obj pkvs))
    (hid : jget (Json.obj pkvs) ("id") = some (Json.int pid))
    (_hname : isNone (pyGet (jgetD (Json.obj pkvs) ("element") (Json.obj []))
      ("name")) = true)
    (hne : ∀ p ∈ s.projectors, (p.id : Int) ≠ pid) :
    project s ks (Json.obj kvs)
      = Except.error
          ((("The projector with id \"" ++ toString pid ++ "\" does not exist"),
            s)) := by
  have hany : s.projectors.any (fun p => (p.id : Int) == pid) = false := by
    rw [List.any_eq_false]
    intro p hp
    simp [hne p hp]
  have hidD : pyGet (Json.obj pkvs) ("id") = Json.int pid := by
    simp [pyGet, jgetD, hid]
  simp [project, projectParse, hcids, hpr, hidD, jsonAsInt, hany]

/-- C2 amended witness: on `dC2` and `sA` both error conditions hold
(no name, no target) and the existence error is reported. -/
theorem C2_amended_witness :
    (isNone (pyGet (jgetD (Json.obj [(("id"), Json.int 3)]) ("element")
        (Json.obj [])) ("name")) = true ∧
      (∀ p ∈ sA.projectors, (p.id : Int) ≠ 3)) ∧
    project sA [] dC2
      = Except.error
          (("The projector with id \"3\" does not exist"), sA) :=
  ⟨⟨rfl, by decide⟩,
    C2_existence_before_name sA [(("prune"), Json.obj [(("id"), Json.int 3)])]
      [(("id"), Json.int 3)] [] 3 [] rfl rfl rfl rfl (by decide)⟩

end OpenSlides
